import Mathlib

/-
  Verification of the bg-prov Boot Guard provisioning tool
  (src/cmd/bg-prov/cmd.go) against its natural-language specification.
  Shallow embedding: byte buffers are List Nat (each entry a byte value),
  fallible Go code returns Except, Go slice out-of-range is modelled as an
  explicit panic outcome, and the manifest library (which is not part of
  the sources under inspection) is modelled either abstractly as records
  of operations or, where a claim is about the library itself, modelled
  from the specification text (marked in the doc comments).
-/

namespace BgProv

/-! ## Little-endian byte codec primitives (spec section 4.1) -/

/-- Little-endian encoding of a natural number into w bytes. -/
def encLE : Nat → Nat → List Nat
  | 0, _ => []
  | w + 1, n => n % 256 :: encLE w (n / 256)

/-- Little-endian decoding of w bytes from the front of a buffer. -/
def decLE : Nat → List Nat → Option (Nat × List Nat)
  | 0, l => some (0, l)
  | _ + 1, [] => none
  | w + 1, b :: t =>
    match decLE w t with
    | none => none
    | some (m, r) => some (b + 256 * m, r)

/-! ## Truncation (spec section 4.5, code: generateKMCmd.Run line 353 and
    generateBPMCmd.Run line 438, both plain Go slice expressions) -/

/-- Possible outcomes of the truncation operation: a successful prefix, the
error value the spec names, or a Go runtime panic (a crash, not an error
value). -/
inductive TruncResult where
  | ok (bytes : List Nat)
  | offsetOutOfRangeError
  | goPanic
  deriving DecidableEq, Repr

/-- Embeds the Go slice expression b[:k] used for cutting the signature
(lines 353 and 438 of cmd.go): for k at most the length it yields the
prefix; beyond the length the Go runtime panics (capacity is taken to be
the length, as for the freshly produced buffers these lines slice). -/
def truncateGo (b : List Nat) (k : Nat) : TruncResult :=
  if k ≤ b.length then TruncResult.ok (b.take k) else TruncResult.goPanic

/-! ## Stitching (spec section 4.6, code: stitchingCmd.Run lines 589-600) -/

inductive StitchErr where
  | noPayloadError
  | fitNotFoundError
  deriving DecidableEq, Repr

/-- The eight FIT signature bytes, the underscore-F-I-T-underscore marker
padded with three spaces. -/
def fitSignature : List Nat := [0x5F, 0x46, 0x49, 0x54, 0x5F, 0x20, 0x20, 0x20]

/-- Modelled from the spec: bg.StitchFITEntries is not under src/.
Section 4.6 describes locating the FIT through a fixed-signature pointer
table near a known offset convention in the image: a pointer held at a
fixed distance (0x40 bytes) from the end of the image must lead to a
header beginning with the FIT signature; otherwise no FIT is found. -/
def findFIT (bios : List Nat) : Option Nat :=
  if bios.length < 0x40 then none
  else
    match decLE 4 (bios.drop (bios.length - 0x40)) with
    | none => none
    | some (p, _) =>
      if (bios.drop p).take 8 = fitSignature then some p else none

/-- Modelled from the spec: bg.StitchFITEntries is not under src/.
Section 4.6: failure to locate a valid FIT signature is fatal
(FITNotFoundError) with no fallback layout, and the scenario in section 8
requires the input buffer to be left unmodified. On success the rewrite of
the located table is abstracted by the doStitch argument. The second
component of the result is the image buffer after the operation. -/
def stitchFITEntries (bios acm bpm km : List Nat) (doStitch : Nat → List Nat) :
    Except StitchErr Unit × List Nat :=
  match findFIT bios with
  | none => (Except.error StitchErr.fitNotFoundError, bios)
  | some p =>
    let _ := (acm, bpm, km)
    (Except.ok (), doStitch p)

/-- Embeds stitchingCmd.Run (cmd.go lines 589-600): if all three payload
buffers are empty the run fails with the no-payload error, otherwise it
proceeds to StitchFITEntries on the BIOS image. -/
def stitchingRun (bios acm km bpm : List Nat) (doStitch : Nat → List Nat) :
    Except StitchErr Unit × List Nat :=
  if acm.length = 0 ∧ km.length = 0 ∧ bpm.length = 0 then
    (Except.error StitchErr.noPayloadError, bios)
  else stitchFITEntries bios acm bpm km doStitch

/-! ## NVReadAll (code: the api package, second source part, lines 676-686) -/

/-- Embeds NVReadAll: starting at offset 0 it reads one byte at a time
through the supplied reader (tpm1.NVReadValue specialised to count 1,
where none models a read error) and returns the bytes accumulated so far
the moment a read fails, discarding the error. The Go loop is unbounded;
fuel makes the embedding total, and the theorems only use runs in which a
read fails before the fuel runs out. -/
def NVReadAllGo (read : Nat → Option Nat) : Nat → Nat → List Nat → List Nat
  | 0, _, acc => acc
  | fuel + 1, i, acc =>
    match read i with
    | none => acc
    | some b => NVReadAllGo read fuel (i + 1) (acc ++ [b])

def NVReadAll (read : Nat → Option Nat) (fuel : Nat) : List Nat :=
  NVReadAllGo read fuel 0 []

/-! ## Signing flows (code: signKMCmd.Run lines 446-478, signBPMCmd.Run
    lines 480-528, generateBPMCmd.Run lines 361-444) -/

/-- Parse errors: the distinguished end-of-file error (io.EOF) and all
other errors. -/
inductive ParseError where
  | eof
  | other (code : Nat)
  deriving DecidableEq, Repr

/-- Errors a command run can return: a propagated parse error, the
invalid-key-type error from the key switch, the key-algorithm-mismatch
error named by the spec (shown unreachable), an error propagated from a
library call, and a Go runtime panic. -/
inductive GoError where
  | parse (e : ParseError)
  | invalidKeyType
  | keyAlgorithmMismatchError
  | lib (code : Nat)
  | goPanic
  deriving DecidableEq, Repr

/-- Private keys as the Go type switch sees them: an RSA key, an
elliptic-curve key, or a key of any other dynamic type. The Nat carries
the key material abstractly. -/
inductive GoPrivKey where
  | rsa (d : Nat)
  | ecdsa (d : Nat)
  | other (d : Nat)
  deriving DecidableEq, Repr

/-- The signature element (PMSE): key descriptor (algorithm tag plus
public key material) and signature descriptor (hash algorithm tag plus
signature bytes), per spec section 3. -/
structure SigElement where
  keyAlg : Nat
  pubKey : List Nat
  hashAlg : Nat
  sig : List Nat
  deriving DecidableEq, Repr

/-- Key-algorithm tag for RSA keys (TPM algorithm identifier). -/
def rsaKeyAlgTag : Nat := 0x0001

/-- Key-algorithm tag for elliptic-curve keys (TPM algorithm identifier). -/
def eccKeyAlgTag : Nat := 0x0023

/-- bootpolicy.NewSignature: a fresh signature element with both algorithm
tags unpopulated (zero) and no key or signature material. -/
def newSignatureElem : SigElement :=
  { keyAlg := 0, pubKey := [], hashAlg := 0, sig := [] }

/-- Modelled from the spec: Key.SetPubKey lives in the manifest library,
not under src/. Section 4.4: the key kind determines the key-algorithm
tag written into the element; the public key material is recorded. -/
def setPubKey (se : SigElement) (k : GoPrivKey) : SigElement :=
  match k with
  | GoPrivKey.rsa d => { se with keyAlg := rsaKeyAlgTag, pubKey := [d % 256] }
  | GoPrivKey.ecdsa d => { se with keyAlg := eccKeyAlgTag, pubKey := [d % 256] }
  | GoPrivKey.other _ => se

/-- Embeds the key type switch of signBPMCmd.Run (cmd.go lines 499-507):
a fresh signature element is built and the public key of an RSA or
elliptic-curve private key is bound into it; any other key type is
rejected with the invalid-key-type error. -/
def newSignatureFromKey (k : GoPrivKey) : Except GoError SigElement :=
  match k with
  | GoPrivKey.rsa d => Except.ok (setPubKey newSignatureElem (GoPrivKey.rsa d))
  | GoPrivKey.ecdsa d => Except.ok (setPubKey newSignatureElem (GoPrivKey.ecdsa d))
  | GoPrivKey.other _ => Except.error GoError.invalidKeyType

/-- The in-memory boot policy manifest as the command code touches it: the
PMSE element and the two derived offsets it reads, with all remaining
manifest content held abstractly in the content field. -/
structure BPMState where
  content : Nat
  keySignatureOffset : Nat
  pmseOffset : Nat
  pmse : SigElement
  deriving DecidableEq, Repr

/-- The manifest-library operations signBPMCmd.Run calls, abstract because
the library is not under src/: ReadFrom returns the state read so far plus
an optional error (Go mutates the receiver in place), WriteBPM serializes
the manifest and recomputes the two derived offsets (spec section 3:
offsets are recomputed on every serialization), RehashRecursive recomputes
digests in memory, and SetSignature produces the updated PMSE from the key
and the bytes to sign. -/
structure BPMLib where
  readFrom : List Nat → BPMState × Option ParseError
  writeBPM : BPMState → Except Nat (List Nat × Nat × Nat)
  rehash : BPMState → BPMState
  setSignature : SigElement → GoPrivKey → List Nat → Except Nat SigElement

/-- What a signing run did: the serialized buffer the signed prefix was
taken from, the offset used, the exact bytes handed to the signature
computation, and the bytes written out. -/
structure BPMSignTrace where
  serialized : List Nat
  signedRegionEnd : Nat
  signerInput : List Nat
  output : List Nat
  deriving DecidableEq, Repr

/-- Embeds signBPMCmd.Run after the parse guard (cmd.go lines 499-527):
build the signature element from the key, replace bpm.PMSE with it,
serialize with WriteBPM, run RehashRecursive, take the prefix of the
serialized buffer up to KeySignatureOffset, compute the signature over
that prefix, and serialize again for the output file. -/
def signBPMAfterParse (lib : BPMLib) (bpm0 : BPMState) (key : GoPrivKey) :
    Except GoError BPMSignTrace :=
  match newSignatureFromKey key with
  | Except.error e => Except.error e
  | Except.ok kAs =>
    let bpm1 := { bpm0 with pmse := kAs }
    match lib.writeBPM bpm1 with
    | Except.error n => Except.error (GoError.lib n)
    | Except.ok (bpmRaw, ksOff, pmOff) =>
      let bpm2 := { bpm1 with keySignatureOffset := ksOff, pmseOffset := pmOff }
      let bpm3 := lib.rehash bpm2
      let unsignedBPM := bpmRaw.take bpm3.keySignatureOffset
      match lib.setSignature bpm3.pmse key unsignedBPM with
      | Except.error n => Except.error (GoError.lib n)
      | Except.ok pmse2 =>
        let bpm4 := { bpm3 with pmse := pmse2 }
        match lib.writeBPM bpm4 with
        | Except.error n => Except.error (GoError.lib n)
        | Except.ok (outBytes, _, _) =>
          Except.ok { serialized := bpmRaw, signedRegionEnd := bpm3.keySignatureOffset,
                      signerInput := unsignedBPM, output := outBytes }

/-- Embeds signBPMCmd.Run (cmd.go lines 480-528) from the point the input
BPM bytes are parsed: the parse guard returns on every parse error except
io.EOF, which is tolerated (cmd.go line 496), and the flow then continues
with the partially filled manifest. -/
def signBPMRun (lib : BPMLib) (bpmRaw0 : List Nat) (key : GoPrivKey) :
    Except GoError BPMSignTrace :=
  let r := lib.readFrom bpmRaw0
  match r.2 with
  | some ParseError.eof => signBPMAfterParse lib r.1 key
  | some e => Except.error (GoError.parse e)
  | none => signBPMAfterParse lib r.1 key

/-- The in-memory key manifest as the command code touches it: the derived
signature-region offset it reads, with all remaining content abstract. -/
structure KMState where
  content : Nat
  keyAndSignatureOffset : Nat
  deriving DecidableEq, Repr

/-- The manifest-library operations signKMCmd.Run calls, abstract because
the library is not under src/. -/
structure KMLib where
  readFrom : List Nat → Except ParseError KMState
  rehash : KMState → KMState
  setSignature : KMState → GoPrivKey → List Nat → Except Nat KMState
  writeKM : KMState → Except Nat (List Nat)

structure KMSignTrace where
  serialized : List Nat
  signedRegionEnd : Nat
  signerInput : List Nat
  output : List Nat
  deriving DecidableEq, Repr

/-- Embeds signKMCmd.Run (cmd.go lines 446-478): parse the input KM bytes,
returning on every parse error; run RehashRecursive in memory; take the
prefix of the raw input bytes up to KeyAndSignatureOffset; compute the
signature over that prefix; serialize for the output file. -/
def signKMRun (lib : KMLib) (kmRaw : List Nat) (key : GoPrivKey) :
    Except GoError KMSignTrace :=
  match lib.readFrom kmRaw with
  | Except.error e => Except.error (GoError.parse e)
  | Except.ok km0 =>
    let km1 := lib.rehash km0
    let unsignedKM := kmRaw.take km1.keyAndSignatureOffset
    match lib.setSignature km1 key unsignedKM with
    | Except.error n => Except.error (GoError.lib n)
    | Except.ok km2 =>
      match lib.writeKM km2 with
      | Except.error n => Except.error (GoError.lib n)
      | Except.ok out =>
        Except.ok { serialized := kmRaw, signedRegionEnd := km1.keyAndSignatureOffset,
                    signerInput := unsignedKM, output := out }

/-- The signing order the specification describes (section 3 lifecycle and
section 4.3): digests are recomputed first, the manifest is serialized
after that, and the signature is computed over the prefix of that
post-rehash serialization. Written from the words of the spec, for
comparison with signBPMRun, which is embedded from the code. -/
def specOrderSignedBytes (lib : BPMLib) (bpmRaw0 : List Nat) (key : GoPrivKey) :
    Except GoError (List Nat) :=
  let r := lib.readFrom bpmRaw0
  match newSignatureFromKey key with
  | Except.error e => Except.error e
  | Except.ok kAs =>
    let bpm1 := { r.1 with pmse := kAs }
    let bpm2 := lib.rehash bpm1
    match lib.writeBPM bpm2 with
    | Except.error n => Except.error (GoError.lib n)
    | Except.ok (raw2, ksOff, _) => Except.ok (raw2.take ksOff)

/-- Embeds the hacky section of generateBPMCmd.Run (cmd.go lines 420-423):
immediately after GenerateBPM and before any key or signature is bound,
the key-algorithm tag and the signature hash-algorithm tag of the PMSE are
both set to the fixed placeholder value 0x01, just to make the parsing
work. -/
def generateBPMHack (bpm : BPMState) : BPMState :=
  { bpm with pmse := { bpm.pmse with keyAlg := 0x01, hashAlg := 0x01 } }

/-- The manifest-library operations generateBPMCmd.Run calls, abstract
because the library is not under src/. -/
structure GenBPMLib where
  generateBPM : Nat → List Nat → Except Nat BPMState
  writeBPM : BPMState → Except Nat (List Nat × Nat × Nat)

structure GenBPMTrace where
  manifest : BPMState
  output : List Nat
  deriving DecidableEq, Repr

/-- Embeds generateBPMCmd.Run (cmd.go lines 361-444) from GenerateBPM on:
apply the placeholder-tag hack, serialize, and when the cut flag is set
truncate the buffer at PMSEOffset with a plain Go slice expression. -/
def generateBPMRun (lib : GenBPMLib) (opts : Nat) (bios : List Nat) (cut : Bool) :
    Except GoError GenBPMTrace :=
  match lib.generateBPM opts bios with
  | Except.error n => Except.error (GoError.lib n)
  | Except.ok bpm0 =>
    let bpm1 := generateBPMHack bpm0
    match lib.writeBPM bpm1 with
    | Except.error n => Except.error (GoError.lib n)
    | Except.ok (bBPM, ksOff, pmOff) =>
      let bpm2 := { bpm1 with keySignatureOffset := ksOff, pmseOffset := pmOff }
      if cut then
        match truncateGo bBPM bpm2.pmseOffset with
        | TruncResult.ok b => Except.ok { manifest := bpm2, output := b }
        | TruncResult.offsetOutOfRangeError => Except.error GoError.goPanic
        | TruncResult.goPanic => Except.error GoError.goPanic
      else
        Except.ok { manifest := bpm2, output := bBPM }

/-- True exactly on successful results. -/
def isOkE {ε α : Type} : Except ε α → Bool
  | Except.ok _ => true
  | Except.error _ => false

/-! ## Concrete library instantiations used to evaluate the flows -/

/-- A manifest state with nothing bound, used by concrete runs. -/
def blankBPMState : BPMState :=
  { content := 0, keySignatureOffset := 0, pmseOffset := 0, pmse := newSignatureElem }

/-- A concrete library on which RehashRecursive changes the manifest
content (a digest goes from 0 to 7), making serializations before and
after the rehash differ: serialization is the one-byte buffer holding the
content value, and the signature region starts at offset 1. -/
def rehashChangesLib : BPMLib :=
  { readFrom := fun _ => (blankBPMState, none)
    writeBPM := fun s => Except.ok ([s.content, 5], 1, 1)
    rehash := fun s => { s with content := 7 }
    setSignature := fun p _ _ => Except.ok p }

/-- A concrete library whose parsed manifest carries a previously bound
RSA public key (key-algorithm tag already set to the RSA tag), for probing
the absence of a key-kind mismatch check. -/
def boundRSALib : BPMLib :=
  { readFrom := fun _ =>
      ({ blankBPMState with
         pmse := { keyAlg := rsaKeyAlgTag, pubKey := [3], hashAlg := 0, sig := [] } }, none)
    writeBPM := fun s => Except.ok ([s.content], 0, 0)
    rehash := fun s => s
    setSignature := fun p _ _ => Except.ok p }

/-- A concrete library whose parse reports io.EOF together with a
partially filled manifest. -/
def eofBPMLib : BPMLib :=
  { readFrom := fun _ => (blankBPMState, some ParseError.eof)
    writeBPM := fun s => Except.ok ([s.content], 0, 0)
    rehash := fun s => s
    setSignature := fun p _ _ => Except.ok p }

/-- A concrete KM library whose parse fails with io.EOF. -/
def eofKMLib : KMLib :=
  { readFrom := fun _ => Except.error ParseError.eof
    rehash := fun s => s
    setSignature := fun s _ _ => Except.ok s
    writeKM := fun _ => Except.ok [] }

/-- A concrete KM library on which a signing run succeeds: the parsed
manifest has its signature region starting at offset 2. -/
def plainKMLib : KMLib :=
  { readFrom := fun _ => Except.ok { content := 0, keyAndSignatureOffset := 2 }
    rehash := fun s => s
    setSignature := fun s _ _ => Except.ok s
    writeKM := fun s => Except.ok [s.content] }

/-- A concrete BPM generation library returning a manifest with nothing
bound (both PMSE algorithm tags zero). -/
def blankGenLib : GenBPMLib :=
  { generateBPM := fun _ _ => Except.ok blankBPMState
    writeBPM := fun s => Except.ok ([s.content], 0, 0) }

/-- The trace of the concrete KM signing run on plainKMLib with input
bytes [1, 2, 3]. -/
def kmTraceEx : KMSignTrace :=
  { serialized := [1, 2, 3], signedRegionEnd := 2, signerInput := [1, 2], output := [0] }

/-- The trace of the concrete BPM signing run on rehashChangesLib. -/
def bpmTraceEx : BPMSignTrace :=
  { serialized := [0, 5], signedRegionEnd := 1, signerInput := [0], output := [7, 5] }

/-- The trace of the concrete BPM generation run on blankGenLib. -/
def genTraceEx : GenBPMTrace :=
  { manifest := { content := 0, keySignatureOffset := 0, pmseOffset := 0,
                  pmse := { keyAlg := 1, pubKey := [], hashAlg := 1, sig := [] } }
    output := [0] }

/-! ## Element codec and manifest assembler (spec sections 3, 4.1 and 4.2).
    Modelled from the spec: the element codec and the assembler live in
    the manifest library packages, which are not under src/; the data
    model and layout rules below follow the field lists of section 3 and
    the codec contract of section 4.1 (fixed type tag, explicit length
    field, little-endian integers, length-prefixed variable lists). -/

structure IBBSegment where
  base : Nat
  size : Nat
  flags : Nat
  deriving DecidableEq, Repr

structure HashEntry where
  alg : Nat
  digest : List Nat
  deriving DecidableEq, Repr

structure IBBElement where
  flags : Nat
  mchbar : Nat
  vtdbar : Nat
  dmaProtBase0 : Nat
  dmaProtLimit0 : Nat
  dmaProtBase1 : Nat
  dmaProtLimit1 : Nat
  entryPoint : Nat
  segments : List IBBSegment
  digests : List HashEntry
  deriving DecidableEq, Repr

structure TXTElement where
  sinitMinSVN : Nat
  flags : Nat
  pwrDownInterval : Nat
  acpiBaseOffset : Nat
  pwrMBaseOffset : Nat
  cmosOff0 : Nat
  cmosOff1 : Nat
  deriving DecidableEq, Repr

structure KMHash where
  usage : Nat
  digest : List Nat
  deriving DecidableEq, Repr

structure KMBody where
  revision : Nat
  kmSVN : Nat
  kmID : Nat
  pubKeyHashAlg : Nat
  hashes : List KMHash
  deriving DecidableEq, Repr

/-- The element variants of the data model (spec section 3). -/
inductive Element where
  | ibb (e : IBBElement)
  | txt (e : TXTElement)
  | sigE (e : SigElement)
  | kmBody (e : KMBody)
  deriving DecidableEq, Repr

/-- A byte string with a two-byte length prefix. -/
def encBytesLP (bs : List Nat) : List Nat := encLE 2 bs.length ++ bs

def decBytesLP (l : List Nat) : Option (List Nat × List Nat) :=
  match decLE 2 l with
  | none => none
  | some (n, rest) =>
    if n ≤ rest.length then some (rest.take n, rest.drop n) else none

/-- Concatenation of the encodings of a list of items. -/
def encCat (enc : α → List Nat) : List α → List Nat
  | [] => []
  | x :: xs => enc x ++ encCat enc xs

/-- A list of items with a two-byte count prefix. -/
def encListLP (enc : α → List Nat) (xs : List α) : List Nat :=
  encLE 2 xs.length ++ encCat enc xs

/-- Decode exactly n items in sequence. -/
def decItems (dec : List Nat → Option (α × List Nat)) :
    Nat → List Nat → Option (List α × List Nat)
  | 0, l => some ([], l)
  | n + 1, l =>
    match dec l with
    | none => none
    | some (x, r) =>
      match decItems dec n r with
      | none => none
      | some (xs, r2) => some (x :: xs, r2)

def decListLP (dec : List Nat → Option (α × List Nat)) (l : List Nat) :
    Option (List α × List Nat) :=
  match decLE 2 l with
  | none => none
  | some (n, rest) => decItems dec n rest

def encSeg (s : IBBSegment) : List Nat :=
  encLE 4 s.base ++ encLE 4 s.size ++ encLE 2 s.flags

def decSeg (l : List Nat) : Option (IBBSegment × List Nat) :=
  match decLE 4 l with
  | none => none
  | some (base, r1) =>
    match decLE 4 r1 with
    | none => none
    | some (size, r2) =>
      match decLE 2 r2 with
      | none => none
      | some (flags, r3) => some ({ base := base, size := size, flags := flags }, r3)

def encHashEntry (e : HashEntry) : List Nat := encLE 2 e.alg ++ encBytesLP e.digest

def decHashEntry (l : List Nat) : Option (HashEntry × List Nat) :=
  match decLE 2 l with
  | none => none
  | some (alg, r1) =>
    match decBytesLP r1 with
    | none => none
    | some (digest, r2) => some ({ alg := alg, digest := digest }, r2)

def encIBBBody (e : IBBElement) : List Nat :=
  encLE 4 e.flags ++ encLE 8 e.mchbar ++ encLE 8 e.vtdbar ++
  encLE 4 e.dmaProtBase0 ++ encLE 4 e.dmaProtLimit0 ++
  encLE 8 e.dmaProtBase1 ++ encLE 8 e.dmaProtLimit1 ++
  encLE 4 e.entryPoint ++ encListLP encSeg e.segments ++
  encListLP encHashEntry e.digests

def decIBBBody (l : List Nat) : Option (IBBElement × List Nat) :=
  match decLE 4 l with
  | none => none
  | some (flags, r1) =>
    match decLE 8 r1 with
    | none => none
    | some (mchbar, r2) =>
      match decLE 8 r2 with
      | none => none
      | some (vtdbar, r3) =>
        match decLE 4 r3 with
        | none => none
        | some (dmaProtBase0, r4) =>
          match decLE 4 r4 with
          | none => none
          | some (dmaProtLimit0, r5) =>
            match decLE 8 r5 with
            | none => none
            | some (dmaProtBase1, r6) =>
              match decLE 8 r6 with
              | none => none
              | some (dmaProtLimit1, r7) =>
                match decLE 4 r7 with
                | none => none
                | some (entryPoint, r8) =>
                  match decListLP decSeg r8 with
                  | none => none
                  | some (segments, r9) =>
                    match decListLP decHashEntry r9 with
                    | none => none
                    | some (digests, r10) =>
                      some ({ flags := flags, mchbar := mchbar, vtdbar := vtdbar,
                              dmaProtBase0 := dmaProtBase0, dmaProtLimit0 := dmaProtLimit0,
                              dmaProtBase1 := dmaProtBase1, dmaProtLimit1 := dmaProtLimit1,
                              entryPoint := entryPoint, segments := segments,
                              digests := digests }, r10)

def encTXTBody (e : TXTElement) : List Nat :=
  encLE 1 e.sinitMinSVN ++ encLE 4 e.flags ++ encLE 2 e.pwrDownInterval ++
  encLE 2 e.acpiBaseOffset ++ encLE 4 e.pwrMBaseOffset ++
  encLE 1 e.cmosOff0 ++ encLE 1 e.cmosOff1

def decTXTBody (l : List Nat) : Option (TXTElement × List Nat) :=
  match decLE 1 l with
  | none => none
  | some (sinitMinSVN, r1) =>
    match decLE 4 r1 with
    | none => none
    | some (flags, r2) =>
      match decLE 2 r2 with
      | none => none
      | some (pwrDownInterval, r3) =>
        match decLE 2 r3 with
        | none => none
        | some (acpiBaseOffset, r4) =>
          match decLE 4 r4 with
          | none => none
          | some (pwrMBaseOffset, r5) =>
            match decLE 1 r5 with
            | none => none
            | some (cmosOff0, r6) =>
              match decLE 1 r6 with
              | none => none
              | some (cmosOff1, r7) =>
                some ({ sinitMinSVN := sinitMinSVN, flags := flags,
                        pwrDownInterval := pwrDownInterval,
                        acpiBaseOffset := acpiBaseOffset,
                        pwrMBaseOffset := pwrMBaseOffset,
                        cmosOff0 := cmosOff0, cmosOff1 := cmosOff1 }, r7)

def encSigBody (e : SigElement) : List Nat :=
  encLE 2 e.keyAlg ++ encBytesLP e.pubKey ++ encLE 2 e.hashAlg ++ encBytesLP e.sig

def decSigBody (l : List Nat) : Option (SigElement × List Nat) :=
  match decLE 2 l with
  | none => none
  | some (keyAlg, r1) =>
    match decBytesLP r1 with
    | none => none
    | some (pubKey, r2) =>
      match decLE 2 r2 with
      | none => none
      | some (hashAlg, r3) =>
        match decBytesLP r3 with
        | none => none
        | some (sigBytes, r4) =>
          some ({ keyAlg := keyAlg, pubKey := pubKey,
                  hashAlg := hashAlg, sig := sigBytes }, r4)

def encKMHash (e : KMHash) : List Nat := encLE 1 e.usage ++ encBytesLP e.digest

def decKMHash (l : List Nat) : Option (KMHash × List Nat) :=
  match decLE 1 l with
  | none => none
  | some (usage, r1) =>
    match decBytesLP r1 with
    | none => none
    | some (digest, r2) => some ({ usage := usage, digest := digest }, r2)

def encKMBodyBytes (e : KMBody) : List Nat :=
  encLE 1 e.revision ++ encLE 1 e.kmSVN ++ encLE 1 e.kmID ++
  encLE 2 e.pubKeyHashAlg ++ encListLP encKMHash e.hashes

def decKMBodyBytes (l : List Nat) : Option (KMBody × List Nat) :=
  match decLE 1 l with
  | none => none
  | some (revision, r1) =>
    match decLE 1 r1 with
    | none => none
    | some (kmSVN, r2) =>
      match decLE 1 r2 with
      | none => none
      | some (kmID, r3) =>
        match decLE 2 r3 with
        | none => none
        | some (pubKeyHashAlg, r4) =>
          match decListLP decKMHash r4 with
          | none => none
          | some (hashes, r5) =>
            some ({ revision := revision, kmSVN := kmSVN, kmID := kmID,
                    pubKeyHashAlg := pubKeyHashAlg, hashes := hashes }, r5)

def tagIBB : Nat := 1
def tagTXT : Nat := 2
def tagSig : Nat := 3
def tagKMBody : Nat := 4

def elementTag : Element → Nat
  | Element.ibb _ => tagIBB
  | Element.txt _ => tagTXT
  | Element.sigE _ => tagSig
  | Element.kmBody _ => tagKMBody

def encElementBody : Element → List Nat
  | Element.ibb e => encIBBBody e
  | Element.txt e => encTXTBody e
  | Element.sigE e => encSigBody e
  | Element.kmBody e => encKMBodyBytes e

/-- Encode one element: a one-byte type tag, a four-byte length field
holding the body length, then the body (spec section 4.1). -/
def encElement (e : Element) : List Nat :=
  encLE 1 (elementTag e) ++ encLE 4 (encElementBody e).length ++ encElementBody e

/-- Dispatch the body decoder on the type tag; an unknown tag fails
(UnsupportedElementError: the codec never silently skips unknown
elements). -/
def decElementBody (tag : Nat) (body : List Nat) : Option (Element × List Nat) :=
  if tag = tagIBB then
    match decIBBBody body with
    | none => none
    | some (e, r) => some (Element.ibb e, r)
  else if tag = tagTXT then
    match decTXTBody body with
    | none => none
    | some (e, r) => some (Element.txt e, r)
  else if tag = tagSig then
    match decSigBody body with
    | none => none
    | some (e, r) => some (Element.sigE e, r)
  else if tag = tagKMBody then
    match decKMBodyBytes body with
    | none => none
    | some (e, r) => some (Element.kmBody e, r)
  else none

/-- Decode one element: read the tag and the declared length, fail when
fewer bytes remain than declared (TruncatedInputError), decode the body,
and require that the body decoder consumed exactly the declared length
(spec section 4.1: decode must stop reading at exactly the declared
length). -/
def decElement (l : List Nat) : Option (Element × List Nat) :=
  match decLE 1 l with
  | none => none
  | some (tag, r1) =>
    match decLE 4 r1 with
    | none => none
    | some (len, r2) =>
      if len ≤ r2.length then
        match decElementBody tag (r2.take len) with
        | some (e, []) => some (e, r2.drop len)
        | _ => none
      else none

/-- The manifest header fields of spec section 3. -/
structure ManifestHeader where
  revision : Nat
  svn : Nat
  acmSVN : Nat
  nems : Nat
  deriving DecidableEq, Repr

def encHeader (h : ManifestHeader) : List Nat :=
  encLE 1 h.revision ++ encLE 1 h.svn ++ encLE 1 h.acmSVN ++ encLE 2 h.nems

def decHeader (l : List Nat) : Option (ManifestHeader × List Nat) :=
  match decLE 1 l with
  | none => none
  | some (revision, r1) =>
    match decLE 1 r1 with
    | none => none
    | some (svn, r2) =>
      match decLE 1 r2 with
      | none => none
      | some (acmSVN, r3) =>
        match decLE 2 r3 with
        | none => none
        | some (nems, r4) =>
          some ({ revision := revision, svn := svn, acmSVN := acmSVN, nems := nems }, r4)

/-- A manifest: a header and an ordered sequence of elements. -/
structure Manifest where
  header : ManifestHeader
  elements : List Element
  deriving DecidableEq, Repr

/-- Assemble a manifest into one contiguous byte buffer: header followed
by the elements in their given order (spec section 4.2). Assembly only
lays out bytes; it computes no digests. -/
def assemble (m : Manifest) : List Nat :=
  encHeader m.header ++ encCat encElement m.elements

def isSigElemE : Element → Bool
  | Element.sigE _ => true
  | _ => false

/-- The structural check of disassembly (spec section 4.2): exactly one
signature element appears and it is the last element. -/
def sigPlacementOK (es : List Element) : Bool :=
  (es.filter isSigElemE).length == 1 &&
    (match es.getLast? with
     | some e => isSigElemE e
     | none => false)

/-- Decode elements until the input is exhausted. The fuel argument makes
the recursion structural; disassembly supplies the input length as fuel,
which suffices because every encoded element is at least one byte long. -/
def decElements : Nat → List Nat → Option (List Element)
  | 0, l => if l.isEmpty then some [] else none
  | fuel + 1, l =>
    if l.isEmpty then some []
    else
      match decElement l with
      | none => none
      | some (e, r) =>
        match decElements fuel r with
        | none => none
        | some es => some (e :: es)

/-- Disassemble a buffer: parse the header, then elements until the input
is exhausted, then validate that exactly one signature element appears and
that it is last (spec section 4.2). -/
def disassemble (bytes : List Nat) : Option Manifest :=
  match decHeader bytes with
  | none => none
  | some (h, rest) =>
    match decElements rest.length rest with
    | none => none
    | some es =>
      if sigPlacementOK es then some { header := h, elements := es } else none

/-! ### Validity of manifests: every numeric field fits its encoded width,
    list lengths fit their count prefixes, the IBB segment list is
    nonempty, and the element order satisfies the signature-placement
    rule. -/

abbrev segValidP (s : IBBSegment) : Prop :=
  s.base < 256 ^ 4 ∧ s.size < 256 ^ 4 ∧ s.flags < 256 ^ 2

abbrev hashEntryValidP (e : HashEntry) : Prop :=
  e.alg < 256 ^ 2 ∧ e.digest.length < 256 ^ 2

abbrev ibbValidP (e : IBBElement) : Prop :=
  e.flags < 256 ^ 4 ∧ e.mchbar < 256 ^ 8 ∧ e.vtdbar < 256 ^ 8 ∧
  e.dmaProtBase0 < 256 ^ 4 ∧ e.dmaProtLimit0 < 256 ^ 4 ∧
  e.dmaProtBase1 < 256 ^ 8 ∧ e.dmaProtLimit1 < 256 ^ 8 ∧
  e.entryPoint < 256 ^ 4 ∧
  0 < e.segments.length ∧ e.segments.length < 256 ^ 2 ∧
  (∀ s ∈ e.segments, segValidP s) ∧
  e.digests.length < 256 ^ 2 ∧ (∀ d ∈ e.digests, hashEntryValidP d)

abbrev txtValidP (e : TXTElement) : Prop :=
  e.sinitMinSVN < 256 ^ 1 ∧ e.flags < 256 ^ 4 ∧ e.pwrDownInterval < 256 ^ 2 ∧
  e.acpiBaseOffset < 256 ^ 2 ∧ e.pwrMBaseOffset < 256 ^ 4 ∧
  e.cmosOff0 < 256 ^ 1 ∧ e.cmosOff1 < 256 ^ 1

abbrev sigElemValidP (e : SigElement) : Prop :=
  e.keyAlg < 256 ^ 2 ∧ e.pubKey.length < 256 ^ 2 ∧
  e.hashAlg < 256 ^ 2 ∧ e.sig.length < 256 ^ 2

abbrev kmHashValidP (e : KMHash) : Prop :=
  e.usage < 256 ^ 1 ∧ e.digest.length < 256 ^ 2

abbrev kmBodyValidP (e : KMBody) : Prop :=
  e.revision < 256 ^ 1 ∧ e.kmSVN < 256 ^ 1 ∧ e.kmID < 256 ^ 1 ∧
  e.pubKeyHashAlg < 256 ^ 2 ∧ e.hashes.length < 256 ^ 2 ∧
  (∀ x ∈ e.hashes, kmHashValidP x)

def elementKindValidP : Element → Prop
  | Element.ibb e => ibbValidP e
  | Element.txt e => txtValidP e
  | Element.sigE e => sigElemValidP e
  | Element.kmBody e => kmBodyValidP e

instance (e : Element) : Decidable (elementKindValidP e) := by
  cases e <;> simp only [elementKindValidP] <;> infer_instance

abbrev elementValidP (e : Element) : Prop :=
  elementKindValidP e ∧ (encElementBody e).length < 256 ^ 4

abbrev headerValidP (h : ManifestHeader) : Prop :=
  h.revision < 256 ^ 1 ∧ h.svn < 256 ^ 1 ∧ h.acmSVN < 256 ^ 1 ∧ h.nems < 256 ^ 2

abbrev manifestValidP (m : Manifest) : Prop :=
  headerValidP m.header ∧ (∀ e ∈ m.elements, elementValidP e) ∧
  sigPlacementOK m.elements = true

/-- A small concrete valid manifest: one IBB element with one segment and
one digest entry, one TXT element, and a signature element last. -/
def exampleManifest : Manifest :=
  { header := { revision := 1, svn := 2, acmSVN := 3, nems := 4 }
    elements :=
      [ Element.ibb
          { flags := 0, mchbar := 5, vtdbar := 6, dmaProtBase0 := 7,
            dmaProtLimit0 := 8, dmaProtBase1 := 9, dmaProtLimit1 := 10,
            entryPoint := 11, segments := [{ base := 0x1000, size := 0x2000, flags := 0 }],
            digests := [{ alg := 0x000B, digest := [1, 2, 3] }] }
      , Element.txt
          { sinitMinSVN := 0, flags := 0, pwrDownInterval := 1,
            acpiBaseOffset := 2, pwrMBaseOffset := 3, cmosOff0 := 4, cmosOff1 := 5 }
      , Element.sigE { keyAlg := 1, pubKey := [9, 9], hashAlg := 11, sig := [7] } ] }

/-! ## Helper lemmas -/

theorem decLE_encLE {w n : Nat} {rest : List Nat} (h : n < 256 ^ w) :
    decLE w (encLE w n ++ rest) = some (n, rest) := by
  induction w generalizing n with
  | zero =>
    have hn : n = 0 := by simpa using h
    subst hn
    simp [encLE, decLE]
  | succ w ih =>
    have hdiv : n / 256 < 256 ^ w := by
      rw [Nat.div_lt_iff_lt_mul (by norm_num : 0 < 256)]
      calc n < 256 ^ (w + 1) := h
        _ = 256 ^ w * 256 := by rw [pow_succ]
    simp only [encLE, List.cons_append, decLE, List.append_eq]
    rw [ih hdiv]
    simp [Nat.mod_add_div]

theorem decBytesLP_encBytesLP {bs : List Nat} {rest : List Nat}
    (h : bs.length < 256 ^ 2) :
    decBytesLP (encBytesLP bs ++ rest) = some (bs, rest) := by
  simp only [encBytesLP, decBytesLP, List.append_assoc, decLE_encLE h]
  rw [if_pos (by simp)]
  rw [List.take_left, List.drop_left]

theorem decItems_encCat {α : Type} {dec : List Nat → Option (α × List Nat)}
    {enc : α → List Nat} {xs : List α} {rest : List Nat}
    (h : ∀ x ∈ xs, ∀ r : List Nat, dec (enc x ++ r) = some (x, r)) :
    decItems dec xs.length (encCat enc xs ++ rest) = some (xs, rest) := by
  induction xs generalizing rest with
  | nil => simp [encCat, decItems]
  | cons x xs ih =>
    simp only [encCat, List.length_cons, decItems, List.append_assoc]
    rw [h x (by simp) (encCat enc xs ++ rest)]
    simp only [ih (fun y hy r => h y (by simp [hy]) r)]

theorem decListLP_encListLP {α : Type} {dec : List Nat → Option (α × List Nat)}
    {enc : α → List Nat} {xs : List α} {rest : List Nat}
    (hlen : xs.length < 256 ^ 2)
    (h : ∀ x ∈ xs, ∀ r : List Nat, dec (enc x ++ r) = some (x, r)) :
    decListLP dec (encListLP enc xs ++ rest) = some (xs, rest) := by
  simp only [encListLP, decListLP, List.append_assoc, decLE_encLE hlen]
  exact decItems_encCat h

theorem decSeg_encSeg {s : IBBSegment} {rest : List Nat} (h : segValidP s) :
    decSeg (encSeg s ++ rest) = some (s, rest) := by
  obtain ⟨h1, h2, h3⟩ := h
  simp only [encSeg, decSeg, List.append_assoc, decLE_encLE h1, decLE_encLE h2,
    decLE_encLE h3]

theorem decHashEntry_encHashEntry {e : HashEntry} {rest : List Nat}
    (h : hashEntryValidP e) :
    decHashEntry (encHashEntry e ++ rest) = some (e, rest) := by
  obtain ⟨h1, h2⟩ := h
  simp only [encHashEntry, decHashEntry, List.append_assoc, decLE_encLE h1,
    decBytesLP_encBytesLP h2]

theorem decIBBBody_encIBBBody {e : IBBElement} {rest : List Nat} (h : ibbValidP e) :
    decIBBBody (encIBBBody e ++ rest) = some (e, rest) := by
  obtain ⟨h1, h2, h3, h4, h5, h6, h7, h8, _, hseglen, hsegs, hdiglen, hdigs⟩ := h
  have hsegRT : ∀ s ∈ e.segments, ∀ r : List Nat, decSeg (encSeg s ++ r) = some (s, r) :=
    fun s hs r => decSeg_encSeg (hsegs s hs)
  have hdigRT : ∀ d ∈ e.digests, ∀ r : List Nat,
      decHashEntry (encHashEntry d ++ r) = some (d, r) :=
    fun d hd r => decHashEntry_encHashEntry (hdigs d hd)
  simp only [encIBBBody, decIBBBody, List.append_assoc, decLE_encLE h1,
    decLE_encLE h2, decLE_encLE h3, decLE_encLE h4, decLE_encLE h5, decLE_encLE h6,
    decLE_encLE h7, decLE_encLE h8, decListLP_encListLP hseglen hsegRT,
    decListLP_encListLP hdiglen hdigRT]

theorem decTXTBody_encTXTBody {e : TXTElement} {rest : List Nat} (h : txtValidP e) :
    decTXTBody (encTXTBody e ++ rest) = some (e, rest) := by
  obtain ⟨h1, h2, h3, h4, h5, h6, h7⟩ := h
  simp only [encTXTBody, decTXTBody, List.append_assoc, decLE_encLE h1,
    decLE_encLE h2, decLE_encLE h3, decLE_encLE h4, decLE_encLE h5, decLE_encLE h6,
    decLE_encLE h7]

theorem decSigBody_encSigBody {e : SigElement} {rest : List Nat}
    (h : sigElemValidP e) :
    decSigBody (encSigBody e ++ rest) = some (e, rest) := by
  obtain ⟨h1, h2, h3, h4⟩ := h
  simp only [encSigBody, decSigBody, List.append_assoc, decLE_encLE h1,
    decBytesLP_encBytesLP h2, decLE_encLE h3, decBytesLP_encBytesLP h4]

theorem decKMHash_encKMHash {e : KMHash} {rest : List Nat} (h : kmHashValidP e) :
    decKMHash (encKMHash e ++ rest) = some (e, rest) := by
  obtain ⟨h1, h2⟩ := h
  simp only [encKMHash, decKMHash, List.append_assoc, decLE_encLE h1,
    decBytesLP_encBytesLP h2]

theorem decKMBodyBytes_encKMBodyBytes {e : KMBody} {rest : List Nat}
    (h : kmBodyValidP e) :
    decKMBodyBytes (encKMBodyBytes e ++ rest) = some (e, rest) := by
  obtain ⟨h1, h2, h3, h4, h5, h6⟩ := h
  have hRT : ∀ x ∈ e.hashes, ∀ r : List Nat, decKMHash (encKMHash x ++ r) = some (x, r) :=
    fun x hx r => decKMHash_encKMHash (h6 x hx)
  simp only [encKMBodyBytes, decKMBodyBytes, List.append_assoc, decLE_encLE h1,
    decLE_encLE h2, decLE_encLE h3, decLE_encLE h4, decListLP_encListLP h5 hRT]

theorem decElementBody_encElementBody {e : Element} (hk : elementKindValidP e) :
    decElementBody (elementTag e) (encElementBody e) = some (e, []) := by
  cases e with
  | ibb x =>
    have hx := @decIBBBody_encIBBBody x [] hk
    rw [List.append_nil] at hx
    simp [elementTag, encElementBody, decElementBody, tagIBB, tagTXT, tagSig,
      tagKMBody, hx]
  | txt x =>
    have hx := @decTXTBody_encTXTBody x [] hk
    rw [List.append_nil] at hx
    simp [elementTag, encElementBody, decElementBody, tagIBB, tagTXT, tagSig,
      tagKMBody, hx]
  | sigE x =>
    have hx := @decSigBody_encSigBody x [] hk
    rw [List.append_nil] at hx
    simp [elementTag, encElementBody, decElementBody, tagIBB, tagTXT, tagSig,
      tagKMBody, hx]
  | kmBody x =>
    have hx := @decKMBodyBytes_encKMBodyBytes x [] hk
    rw [List.append_nil] at hx
    simp [elementTag, encElementBody, decElementBody, tagIBB, tagTXT, tagSig,
      tagKMBody, hx]

theorem elementTag_lt {e : Element} : elementTag e < 256 ^ 1 := by
  cases e <;> simp [elementTag, tagIBB, tagTXT, tagSig, tagKMBody]

theorem decElement_encElement {e : Element} {rest : List Nat}
    (h : elementValidP e) :
    decElement (encElement e ++ rest) = some (e, rest) := by
  obtain ⟨hk, hlen⟩ := h
  simp only [encElement, decElement, List.append_assoc, decLE_encLE elementTag_lt,
    decLE_encLE hlen]
  rw [if_pos (by simp)]
  rw [List.take_left, List.drop_left, decElementBody_encElementBody hk]

theorem isEmpty_false_of_ne_nil {α : Type} {l : List α} (h : l ≠ []) :
    l.isEmpty = false := by
  cases l with
  | nil => exact absurd rfl h
  | cons a t => rfl

theorem encElement_ne_nil (e : Element) : encElement e ≠ [] := by
  simp [encElement, encLE]

theorem length_le_length_encCat {es : List Element} :
    es.length ≤ (encCat encElement es).length := by
  induction es with
  | nil => simp [encCat]
  | cons e es ih =>
    simp only [encCat, List.length_append, List.length_cons]
    have h1 : 1 ≤ (encElement e).length := by
      cases henc : encElement e with
      | nil => exact absurd henc (encElement_ne_nil e)
      | cons a t => simp
    omega

theorem decElements_encCat {es : List Element} (hv : ∀ e ∈ es, elementValidP e) :
    ∀ fuel, es.length ≤ fuel →
      decElements fuel (encCat encElement es) = some es := by
  induction es with
  | nil =>
    intro fuel _
    cases fuel <;> simp [decElements, encCat]
  | cons e es ih =>
    intro fuel hf
    match fuel with
    | fuel + 1 =>
      have hne : encCat encElement (e :: es) ≠ [] := by
        simp only [encCat]
        intro hcontra
        rcases List.append_eq_nil.mp hcontra with ⟨hnil, _⟩
        exact encElement_ne_nil e hnil
      simp only [decElements, isEmpty_false_of_ne_nil hne, Bool.false_eq_true,
        if_false]
      have hstep : encCat encElement (e :: es) = encElement e ++ encCat encElement es := rfl
      rw [hstep, decElement_encElement (hv e (by simp))]
      simp only [ih (fun x hx => hv x (by simp [hx])) fuel (by simpa using hf)]

theorem disassemble_assemble {m : Manifest} (h : manifestValidP m) :
    disassemble (assemble m) = some m := by
  obtain ⟨⟨hh1, hh2, hh3, hh4⟩, hels, hsig⟩ := h
  simp only [assemble, disassemble, encHeader, decHeader, List.append_assoc,
    decLE_encLE hh1, decLE_encLE hh2, decLE_encLE hh3, decLE_encLE hh4]
  rw [decElements_encCat hels _ length_le_length_encCat]
  simp [hsig]

theorem take_ne_of_lt_length {l : List Nat} {k : Nat} (h : k < l.length) :
    l.take k ≠ l := by
  intro heq
  have hlen := congrArg List.length heq
  rw [List.length_take, Nat.min_eq_left (Nat.le_of_lt h)] at hlen
  omega

theorem stitchFIT_no_noPayload (bios acm bpm km : List Nat) (f : Nat → List Nat) :
    (stitchFITEntries bios acm bpm km f).1 ≠ Except.error StitchErr.noPayloadError := by
  simp only [stitchFITEntries]
  cases hf : findFIT bios <;> simp

theorem NVReadAllGo_range (read : Nat → Option Nat) :
    ∀ k fuel i acc, k < fuel → read (i + k) = none →
      (∀ j, i ≤ j → j < i + k → read j ≠ none) →
      NVReadAllGo read fuel i acc =
        acc ++ (List.range' i k).map (fun j => (read j).getD 0) := by
  intro k
  induction k with
  | zero =>
    intro fuel i acc hfuel hnone _
    match fuel with
    | fuel + 1 =>
      simp only [NVReadAllGo]
      rw [show i + 0 = i from rfl] at hnone
      rw [hnone]
      simp [List.range']
  | succ k ih =>
    intro fuel i acc hfuel hnone hsome
    match fuel with
    | fuel + 1 =>
      have h0 : read i ≠ none := hsome i (Nat.le_refl i) (by omega)
      match hr : read i with
      | none => exact absurd hr h0
      | some b =>
        simp only [NVReadAllGo, hr]
        rw [ih fuel (i + 1) (acc ++ [b]) (by omega)
            (by rw [show i + 1 + k = i + (k + 1) from by omega]; exact hnone)
            (fun j hj1 hj2 => hsome j (by omega) (by omega))]
        simp [List.range'_succ, hr, List.append_assoc]

/-! ## Claims -/

/-- Claim C1: in every signing operation (KM and BPM), the byte string
passed to the signature computation is exactly the prefix of the
serialized manifest up to the signed-region end offset, never the full
buffer including the signature region. For the KM flow the serialized
buffer is the raw input file bytes; for the BPM flow it is the buffer
produced by WriteBPM. -/
theorem c1_signer_gets_only_signed_region :
    (∀ (lib : KMLib) (raw : List Nat) (key : GoPrivKey) (tr : KMSignTrace),
        signKMRun lib raw key = Except.ok tr →
        tr.serialized = raw ∧
        tr.signerInput = tr.serialized.take tr.signedRegionEnd ∧
        (tr.signedRegionEnd < tr.serialized.length → tr.signerInput ≠ tr.serialized)) ∧
    (∀ (lib : BPMLib) (raw : List Nat) (key : GoPrivKey) (tr : BPMSignTrace),
        signBPMRun lib raw key = Except.ok tr →
        tr.signerInput = tr.serialized.take tr.signedRegionEnd ∧
        (tr.signedRegionEnd < tr.serialized.length → tr.signerInput ≠ tr.serialized)) := by
  constructor
  · intro lib raw key tr h
    simp only [signKMRun] at h
    repeat' split at h
    all_goals first
      | exact Except.noConfusion h
      | (injection h with h2; subst h2;
         exact ⟨rfl, rfl, fun hlt => take_ne_of_lt_length hlt⟩)
  · intro lib raw key tr h
    simp only [signBPMRun, signBPMAfterParse] at h
    repeat' split at h
    all_goals first
      | exact Except.noConfusion h
      | (injection h with h2; subst h2;
         exact ⟨rfl, fun hlt => take_ne_of_lt_length hlt⟩)

theorem c1_witness :
    kmTraceEx.signerInput = kmTraceEx.serialized.take kmTraceEx.signedRegionEnd ∧
    kmTraceEx.signerInput ≠ kmTraceEx.serialized ∧
    bpmTraceEx.signerInput = bpmTraceEx.serialized.take bpmTraceEx.signedRegionEnd ∧
    bpmTraceEx.signerInput ≠ bpmTraceEx.serialized := by
  have hkm := c1_signer_gets_only_signed_region.1 plainKMLib [1, 2, 3]
    (GoPrivKey.rsa 0) kmTraceEx rfl
  have hbpm := c1_signer_gets_only_signed_region.2 rehashChangesLib []
    (GoPrivKey.rsa 0) bpmTraceEx rfl
  exact ⟨hkm.2.1, hkm.2.2 (by decide), hbpm.1, hbpm.2 (by decide)⟩

/-- Claim C2 (code bug): the code does not recompute digests before the
serialization it signs. On a library where RehashRecursive changes the
manifest content (serialization [0] before, [7] after), the BPM signing
flow hands the signer the prefix of the pre-rehash serialization ([0]),
while the signing order described by the spec would sign the prefix of
the post-rehash serialization ([7]); moreover the bytes finally written
out come from the post-rehash serialization, so the emitted signature
does not cover the emitted bytes. -/
theorem c2_signature_covers_pre_rehash_bytes :
    (signBPMRun rehashChangesLib [] (GoPrivKey.rsa 0)).map
        (fun tr => tr.signerInput) = Except.ok [0] ∧
    specOrderSignedBytes rehashChangesLib [] (GoPrivKey.rsa 0) = Except.ok [7] ∧
    (Except.ok [0] : Except GoError (List Nat)) ≠ Except.ok [7] ∧
    (signBPMRun rehashChangesLib [] (GoPrivKey.rsa 0)).map
        (fun tr => tr.output) = Except.ok [7, 5] := by
  refine ⟨rfl, rfl, ?_, rfl⟩
  intro hcontra
  injection hcontra with h2
  exact absurd h2 (by decide)

/-- Claim C3 (amended): truncation returns the prefix of the signed bytes
up to the signed-region end when that offset is at most the buffer
length; when the offset exceeds the buffer length the Go slice
expression panics (a crash), and no OffsetOutOfRangeError error value is
produced. -/
theorem c3_truncate_semantics (b : List Nat) (k : Nat) :
    (k ≤ b.length → truncateGo b k = TruncResult.ok (b.take k)) ∧
    (b.length < k → truncateGo b k = TruncResult.goPanic) := by
  constructor
  · intro h
    simp [truncateGo, h]
  · intro h
    simp only [truncateGo]
    rw [if_neg (by omega)]

theorem c3_witness :
    truncateGo [5, 6, 7] 2 = TruncResult.ok [5, 6] ∧
    truncateGo [5, 6] 3 = TruncResult.goPanic := by
  constructor
  · have h := (c3_truncate_semantics [5, 6, 7] 2).1 (by decide)
    simpa using h
  · exact (c3_truncate_semantics [5, 6] 3).2 (by decide)

/-- Claim C3 counterexample: at signedBytes = [0, 0] and
signedRegionEnd = 3 the truncation outcome is a Go runtime panic, not
the OffsetOutOfRangeError error value the claim requires. -/
theorem c3_counterexample :
    truncateGo [0, 0] 3 = TruncResult.goPanic ∧
    truncateGo [0, 0] 3 ≠ TruncResult.offsetOutOfRangeError := by
  constructor <;> decide

/-- Claim C4: the stitch command fails with NoPayloadError exactly when
all three payload byte strings are empty; when at least one is
non-empty, the run proceeds past the check into StitchFITEntries. -/
theorem c4_no_payload_iff_all_empty (bios acm km bpm : List Nat)
    (doStitch : Nat → List Nat) :
    ((stitchingRun bios acm km bpm doStitch).1 =
        Except.error StitchErr.noPayloadError ↔
      (acm = [] ∧ km = [] ∧ bpm = [])) ∧
    (¬(acm = [] ∧ km = [] ∧ bpm = []) →
      stitchingRun bios acm km bpm doStitch =
        stitchFITEntries bios acm bpm km doStitch) := by
  by_cases hc : acm = [] ∧ km = [] ∧ bpm = []
  · obtain ⟨h1, h2, h3⟩ := hc
    subst h1; subst h2; subst h3
    constructor
    · simp [stitchingRun]
    · intro hne
      exact absurd ⟨rfl, rfl, rfl⟩ hne
  · have hcond : ¬(acm.length = 0 ∧ km.length = 0 ∧ bpm.length = 0) := by
      simpa [List.length_eq_zero] using hc
    constructor
    · rw [stitchingRun, if_neg hcond]
      constructor
      · intro h
        exact absurd h (stitchFIT_no_noPayload bios acm bpm km doStitch)
      · intro h
        exact absurd h hc
    · intro _
      rw [stitchingRun, if_neg hcond]

theorem c4_witness :
    ((stitchingRun [] [1] [] [] (fun _ => [])).1 =
        Except.error StitchErr.noPayloadError ↔
      (([1] : List Nat) = [] ∧ ([] : List Nat) = [] ∧ ([] : List Nat) = [])) ∧
    stitchingRun [] [1] [] [] (fun _ => []) =
      stitchFITEntries [] [1] [] [] (fun _ => []) :=
  ⟨(c4_no_payload_iff_all_empty [] [1] [] [] (fun _ => [])).1,
   (c4_no_payload_iff_all_empty [] [1] [] [] (fun _ => [])).2 (by simp)⟩

/-- Claim C5 (amended): the kind of the supplied private key determines
the key-algorithm tag written into the signature element; RSA and
elliptic-curve keys are the only supported kinds and any other kind is
rejected with an invalid-key-type error; however the previously bound
public key is replaced without comparison, and no signing run can ever
fail with KeyAlgorithmMismatchError. -/
theorem c5_key_kind_determines_tag :
    (∀ d, (newSignatureFromKey (GoPrivKey.rsa d)).map SigElement.keyAlg =
        Except.ok rsaKeyAlgTag) ∧
    (∀ d, (newSignatureFromKey (GoPrivKey.ecdsa d)).map SigElement.keyAlg =
        Except.ok eccKeyAlgTag) ∧
    (∀ d, newSignatureFromKey (GoPrivKey.other d) =
        Except.error GoError.invalidKeyType) ∧
    (∀ (lib : BPMLib) (raw : List Nat) (key : GoPrivKey),
        signBPMRun lib raw key ≠ Except.error GoError.keyAlgorithmMismatchError) := by
  refine ⟨fun d => rfl, fun d => rfl, fun d => rfl, ?_⟩
  intro lib raw key h
  cases key with
  | rsa d =>
    simp only [signBPMRun, signBPMAfterParse, newSignatureFromKey] at h
    repeat' split at h
    all_goals simp_all
  | ecdsa d =>
    simp only [signBPMRun, signBPMAfterParse, newSignatureFromKey] at h
    repeat' split at h
    all_goals simp_all
  | other d =>
    simp only [signBPMRun, signBPMAfterParse, newSignatureFromKey] at h
    repeat' split at h
    all_goals simp_all

/-- Claim C5 counterexample: the manifest read for signing already
carries a bound RSA public key (key-algorithm tag rsaKeyAlgTag), the
supplied private key is elliptic-curve (a different kind), and the run
succeeds: no KeyAlgorithmMismatchError is raised, the bound key is
simply replaced. -/
theorem c5_counterexample :
    (boundRSALib.readFrom []).1.pmse.keyAlg = rsaKeyAlgTag ∧
    rsaKeyAlgTag ≠ eccKeyAlgTag ∧
    isOkE (signBPMRun boundRSALib [] (GoPrivKey.ecdsa 5)) = true :=
  ⟨rfl, by decide, rfl⟩

/-- Claim C6 (amended): every manifest produced by the generation
command carries the fixed placeholder value 1 in both the key-descriptor
algorithm tag and the signature-descriptor hash-algorithm tag, set
before any key or signature is bound (the hacky section of
generateBPMCmd.Run), rather than the unpopulated value 0. -/
theorem c6_generation_sets_placeholder_tags (lib : GenBPMLib) (opts : Nat)
    (bios : List Nat) (cut : Bool) (tr : GenBPMTrace)
    (h : generateBPMRun lib opts bios cut = Except.ok tr) :
    tr.manifest.pmse.keyAlg = 0x01 ∧ tr.manifest.pmse.hashAlg = 0x01 := by
  simp only [generateBPMRun, generateBPMHack] at h
  repeat' split at h
  all_goals first
    | exact Except.noConfusion h
    | (injection h with h2; subst h2; exact ⟨rfl, rfl⟩)

theorem c6_witness :
    generateBPMRun blankGenLib 0 [] false = Except.ok genTraceEx ∧
    genTraceEx.manifest.pmse.keyAlg = 0x01 ∧
    genTraceEx.manifest.pmse.hashAlg = 0x01 :=
  ⟨rfl, c6_generation_sets_placeholder_tags blankGenLib 0 [] false genTraceEx rfl⟩

/-- Claim C6 counterexample: GenerateBPM returns a manifest whose PMSE
key-algorithm tag is unpopulated (0) and no key or signature is ever
bound during generation, yet the manifest the generation command
produces carries 1 in both algorithm tags, contradicting the claim that
they stay 0 until a key or signature is bound. -/
theorem c6_counterexample :
    (blankGenLib.generateBPM 0 []).map (fun s => s.pmse.keyAlg) = Except.ok 0 ∧
    (generateBPMRun blankGenLib 0 [] false).map
        (fun tr => (tr.manifest.pmse.keyAlg, tr.manifest.pmse.hashAlg)) =
      Except.ok (1, 1) ∧
    (1 : Nat) ≠ 0 :=
  ⟨rfl, rfl, by decide⟩

/-- Claim C7: for every valid manifest, disassembling the bytes produced
by assembling it yields the manifest back field-for-field, and for every
valid element, decoding its encoding consumes exactly the encoding and
returns the element. -/
theorem c7_roundtrip :
    (∀ m : Manifest, manifestValidP m → disassemble (assemble m) = some m) ∧
    (∀ (e : Element) (rest : List Nat), elementValidP e →
        decElement (encElement e ++ rest) = some (e, rest)) :=
  ⟨fun _ h => disassemble_assemble h, fun _ _ h => decElement_encElement h⟩

theorem c7_witness :
    manifestValidP exampleManifest ∧
    disassemble (assemble exampleManifest) = some exampleManifest :=
  ⟨by decide, c7_roundtrip.1 exampleManifest (by decide)⟩

/-- Claim C8: on a BIOS image in which no FIT can be located, stitching
returns FITNotFoundError and the image buffer is returned byte-for-byte
unchanged. -/
theorem c8_fit_not_found (bios acm bpm km : List Nat)
    (doStitch : Nat → List Nat) (h : findFIT bios = none) :
    stitchFITEntries bios acm bpm km doStitch =
      (Except.error StitchErr.fitNotFoundError, bios) := by
  simp [stitchFITEntries, h]

theorem c8_witness :
    findFIT [] = none ∧
    stitchFITEntries [] [1] [2] [3] (fun _ => [9]) =
      (Except.error StitchErr.fitNotFoundError, []) :=
  ⟨by decide, c8_fit_not_found [] [1] [2] [3] (fun _ => [9]) (by decide)⟩

/-- Claim C9: NVReadAll returns a plain byte list and never an error:
when the first failing read is at index k, it returns exactly the k
bytes read before it (the empty list when the very first read fails),
and the error of the failing read is discarded. -/
theorem c9_nvreadall_swallows_errors (read : Nat → Option Nat) (fuel k : Nat)
    (hk : k < fuel) (hnone : read k = none)
    (hsome : ∀ j, j < k → read j ≠ none) :
    NVReadAll read fuel = (List.range k).map (fun j => (read j).getD 0) := by
  rw [NVReadAll, NVReadAllGo_range read k fuel 0 [] hk (by simpa using hnone)
      (fun j hj1 hj2 => hsome j (by omega)), List.range_eq_range']
  simp

theorem c9_witness :
    NVReadAll (fun j => if j < 2 then some (j + 10) else none) 5 = [10, 11] := by
  rw [c9_nvreadall_swallows_errors (fun j => if j < 2 then some (j + 10) else none)
      5 2 (by decide) (by decide)
      (fun j hj => by
        have hj01 : j = 0 ∨ j = 1 := by omega
        rcases hj01 with h | h <;> subst h <;> decide)]
  decide

/-- Claim C10: the BPM signing entry point treats an io.EOF parse error
as success and continues into the signing pipeline, whereas the KM
signing entry point returns on every parse error, including io.EOF,
without signing. -/
theorem c10_eof_tolerated_only_in_bpm_flow :
    (∀ (lib : BPMLib) (raw : List Nat) (key : GoPrivKey),
        (lib.readFrom raw).2 = some ParseError.eof →
        signBPMRun lib raw key =
          signBPMAfterParse lib (lib.readFrom raw).1 key) ∧
    (∀ (lib : KMLib) (raw : List Nat) (key : GoPrivKey) (e : ParseError),
        lib.readFrom raw = Except.error e →
        signKMRun lib raw key = Except.error (GoError.parse e)) := by
  constructor
  · intro lib raw key h
    simp only [signBPMRun, h]
  · intro lib raw key e h
    simp only [signKMRun, h]

theorem c10_witness :
    signBPMRun eofBPMLib [] (GoPrivKey.rsa 0) =
      signBPMAfterParse eofBPMLib (eofBPMLib.readFrom []).1 (GoPrivKey.rsa 0) ∧
    signKMRun eofKMLib [] (GoPrivKey.rsa 0) =
      Except.error (GoError.parse ParseError.eof) :=
  ⟨c10_eof_tolerated_only_in_bpm_flow.1 eofBPMLib [] (GoPrivKey.rsa 0) rfl,
   c10_eof_tolerated_only_in_bpm_flow.2 eofKMLib [] (GoPrivKey.rsa 0)
     ParseError.eof rfl⟩

end BgProv
